import Mathlib

/-!
Verification development for the GOYO adaptive ANC (Active Noise Control)
engine.  The definitions below are a shallow embedding, over the real
numbers, of the Python sources:

* `GOYO-ANC/Basic_ANC/fxlms_controller.py` — the FxLMS controller
  (`_update_weights`, `_synthesize_block`, `_update_adaptation_gate`,
  `_apply_reference_lowpass`, `_next_reference_block`, the audio callback of
  `run`, and `measure_secondary_path`);
* `GOYO-ANC/enhanced_ANC/fxlms_controller_numba.py` — the Numba variant of
  the weight update;
* `GOYO-ANC/enhanced_ANC/io_utils.py` — device/channel validation;
* `ANC/enhanced_ANC/zero_cross_anc_cli.py` — the narrowband zero-crossing
  controller `_smart_anc_process`, its audio callback, and the
  baseline/freeze monitoring loop of `run_auto_anc`.

Python float arithmetic is modelled as exact real arithmetic; NumPy arrays
become lists of reals.
-/

namespace GoyoANC

noncomputable section

/-- Constant `EPSILON = 1e-9` from `fxlms_controller.py`. -/
def EPSILON : ℝ := 1e-9

/-- Constant `MIN_REFERENCE_POWER = 1e-6` from `fxlms_controller.py`. -/
def MIN_REFERENCE_POWER : ℝ := 1e-6

/-- Constant `MAX_NORM = 1.0` from `fxlms_controller.py`. -/
def MAX_NORM : ℝ := 1

/-- Model of `np.dot` on 1-D arrays. -/
def dot (a b : List ℝ) : ℝ := (List.zipWith (· * ·) a b).sum

/-- Sum of squares of the entries, i.e. `np.sum(l**2)` (also `np.dot(l, l)`
written out). -/
def sumSq (l : List ℝ) : ℝ := (l.map fun x => x * x).sum

/-- Model of `np.linalg.norm` on a 1-D array: the L2 norm.  The Numba
variant computes the same quantity with an explicit
square-of-entries loop followed by `math.sqrt`. -/
def l2norm (l : List ℝ) : ℝ := Real.sqrt (sumSq l)

/-- Model of `np.clip(x, -1.0, 1.0)` on a scalar. -/
def npClip (x : ℝ) : ℝ := min 1 (max (-1) x)

/-! ### FxLMS weight update (`FxLMSANC._update_weights`, lines 601-616) -/

/-- Body of the `for e, fx in zip(error_block, fx_vectors)` loop of
`FxLMSANC._update_weights`: power-threshold skip, normalized step,
leakage, then `weights += mu_eff * e * fx`. -/
def updateWeightsSample (baseStepSize leakage : ℝ) (w : List ℝ) (e : ℝ)
    (fx : List ℝ) : List ℝ :=
  let power := dot fx fx
  if power < MIN_REFERENCE_POWER then w
  else
    let muEff := baseStepSize / (power + EPSILON)
    let w1 := if 0 < leakage then w.map fun wi => wi * (1 - leakage) else w
    List.zipWith (fun wi fxi => wi + muEff * e * fxi) w1 fx

/-- The per-block loop of `FxLMSANC._update_weights` over the zipped
`(error, filtered-reference vector)` pairs. -/
def updateWeightsLoop (baseStepSize leakage : ℝ) :
    List ℝ → List (ℝ × List ℝ) → List ℝ
  | w, [] => w
  | w, (e, fx) :: rest =>
      updateWeightsLoop baseStepSize leakage
        (updateWeightsSample baseStepSize leakage w e fx) rest

/-- Final norm clip of `FxLMSANC._update_weights`:
`if norm > MAX_NORM: weights *= MAX_NORM / max(norm, EPSILON)`. -/
def clipWeightsNorm (w : List ℝ) : List ℝ :=
  let norm := l2norm w
  if MAX_NORM < norm then w.map fun wi => wi * (MAX_NORM / max norm EPSILON)
  else w

/-- `FxLMSANC._update_weights`: per-sample LMS updates over the block
followed by the L2-norm clip. -/
def updateWeights (w : List ℝ) (errorBlock : List ℝ)
    (fxVectors : List (List ℝ)) (baseStepSize leakage : ℝ) : List ℝ :=
  clipWeightsNorm
    (updateWeightsLoop baseStepSize leakage w (errorBlock.zip fxVectors))

/-! ### Numba weight update (`_update_weights_numba`, lines 76-117 of
`fxlms_controller_numba.py`).  Thresholds are function arguments there;
`NumbaFxLMSANC._update_weights` passes the module constants. -/

/-- Body of the `for i in range(n_frames)` loop of `_update_weights_numba`:
identical to the base loop except that the gradient term is subtracted
(`weights[j] -= mu_eff * err * fx_vec[j]`). -/
def updateWeightsNumbaSample (baseStepSize leakage minReferencePower
    epsilon : ℝ) (w : List ℝ) (err : ℝ) (fxVec : List ℝ) : List ℝ :=
  let power := dot fxVec fxVec
  if power < minReferencePower then w
  else
    let muEff := baseStepSize / (power + epsilon)
    let w1 := if 0 < leakage then w.map fun wi => wi * (1 - leakage) else w
    List.zipWith (fun wi fxi => wi - muEff * err * fxi) w1 fxVec

/-- The per-block loop of `_update_weights_numba`. -/
def updateWeightsNumbaLoop (baseStepSize leakage minReferencePower
    epsilon : ℝ) : List ℝ → List (ℝ × List ℝ) → List ℝ
  | w, [] => w
  | w, (err, fxVec) :: rest =>
      updateWeightsNumbaLoop baseStepSize leakage minReferencePower epsilon
        (updateWeightsNumbaSample baseStepSize leakage minReferencePower
          epsilon w err fxVec) rest

/-- Final norm clip of `_update_weights_numba` (explicit sum-of-squares and
`math.sqrt`, then `scale = max_norm / max(norm, epsilon)`). -/
def clipWeightsNormNumba (maxNorm epsilon : ℝ) (w : List ℝ) : List ℝ :=
  let norm := Real.sqrt (sumSq w)
  if maxNorm < norm then w.map fun wi => wi * (maxNorm / max norm epsilon)
  else w

/-- `_update_weights_numba`: the whole function. -/
def updateWeightsNumba (w errorBlock : List ℝ) (fxVectors : List (List ℝ))
    (baseStepSize leakage minReferencePower epsilon maxNorm : ℝ) : List ℝ :=
  clipWeightsNormNumba maxNorm epsilon
    (updateWeightsNumbaLoop baseStepSize leakage minReferencePower epsilon w
      (errorBlock.zip fxVectors))

/-- `NumbaFxLMSANC._update_weights`: calls `_update_weights_numba` with the
module constants `MIN_REFERENCE_POWER`, `EPSILON`, `MAX_NORM`. -/
def numbaControllerUpdateWeights (w errorBlock : List ℝ)
    (fxVectors : List (List ℝ)) (baseStepSize leakage : ℝ) : List ℝ :=
  updateWeightsNumba w errorBlock fxVectors baseStepSize leakage
    MIN_REFERENCE_POWER EPSILON MAX_NORM

/-! ### Basic lemmas about the norm helpers -/

lemma sumSq_nonneg (l : List ℝ) : 0 ≤ sumSq l := by
  refine List.sum_nonneg ?_
  intro y hy
  rcases List.mem_map.mp hy with ⟨x, _, rfl⟩
  exact mul_self_nonneg x

lemma l2norm_nonneg (l : List ℝ) : 0 ≤ l2norm l := Real.sqrt_nonneg _

lemma sumSq_map_mul (l : List ℝ) (c : ℝ) :
    sumSq (l.map fun x => x * c) = sumSq l * (c * c) := by
  induction l with
  | nil => simp [sumSq]
  | cons x l ih =>
      simp only [sumSq, List.map_cons, List.sum_cons] at ih ⊢
      rw [ih]; ring

lemma l2norm_map_mul (l : List ℝ) (c : ℝ) (hc : 0 ≤ c) :
    l2norm (l.map fun x => x * c) = l2norm l * c := by
  rw [l2norm, sumSq_map_mul, Real.sqrt_mul (sumSq_nonneg l),
    Real.sqrt_mul_self hc, l2norm]

lemma EPSILON_le_MAX_NORM : EPSILON ≤ MAX_NORM := by norm_num [EPSILON, MAX_NORM]

/-- Claim C1 (amended, FxLMS half).  After every call of
`FxLMSANC._update_weights` — for any prior weights, error block,
filtered-reference vectors, step size and leakage — the resulting weight
vector satisfies `l2norm weights ≤ MAX_NORM`: the final clip rescales the
vector uniformly whenever its norm exceeds `MAX_NORM`.  (The narrowband
coefficient pair of `_smart_anc_process` has no such clip; see the
counterexample theorem for this claim.) -/
theorem updateWeights_norm_le_MAX_NORM (w errorBlock : List ℝ)
    (fxVectors : List (List ℝ)) (mu lam : ℝ) :
    l2norm (updateWeights w errorBlock fxVectors mu lam) ≤ MAX_NORM := by
  unfold updateWeights clipWeightsNorm
  set v := updateWeightsLoop mu lam w (errorBlock.zip fxVectors) with hv
  by_cases h : MAX_NORM < l2norm v
  · simp only [if_pos h]
    have h0 : (0:ℝ) < MAX_NORM := by norm_num [MAX_NORM]
    have h1 : (0:ℝ) < l2norm v := lt_trans h0 h
    have hmax : max (l2norm v) EPSILON = l2norm v :=
      max_eq_left (le_trans EPSILON_le_MAX_NORM h.le)
    rw [hmax, l2norm_map_mul _ _ (div_nonneg h0.le h1.le)]
    have : l2norm v * (MAX_NORM / l2norm v) = MAX_NORM := by
      field_simp
    exact this.le
  · simp only [if_neg h]
    exact not_lt.mp h

lemma numbaSample_eq_base_neg (mu lam : ℝ) (w : List ℝ) (e : ℝ)
    (fx : List ℝ) :
    updateWeightsNumbaSample mu lam MIN_REFERENCE_POWER EPSILON w e fx =
      updateWeightsSample mu lam w (-e) fx := by
  simp only [updateWeightsNumbaSample, updateWeightsSample]
  by_cases h : dot fx fx < MIN_REFERENCE_POWER
  · simp [h]
  · simp only [if_neg h]
    congr 1
    funext wi fxi
    ring

lemma numbaLoop_eq_base_neg (mu lam : ℝ) :
    ∀ (pairs : List (ℝ × List ℝ)) (w : List ℝ),
      updateWeightsNumbaLoop mu lam MIN_REFERENCE_POWER EPSILON w pairs =
        updateWeightsLoop mu lam w (pairs.map fun p => (-p.1, p.2)) := by
  intro pairs
  induction pairs with
  | nil => intro w; rfl
  | cons p rest ih =>
      intro w
      obtain ⟨e, fx⟩ := p
      simp only [updateWeightsNumbaLoop, updateWeightsLoop, List.map_cons]
      rw [numbaSample_eq_base_neg, ih]

lemma clipWeightsNormNumba_eq (v : List ℝ) :
    clipWeightsNormNumba MAX_NORM EPSILON v = clipWeightsNorm v := rfl

/-- Claim C5.  The Numba-accelerated weight update
(`_update_weights_numba`, as invoked by `NumbaFxLMSANC._update_weights`
with the module constants) agrees with the base
`FxLMSANC._update_weights` up to the sign of the gradient term: on
identical inputs it produces exactly the weights the base variant
produces on the negated error block — same power-threshold skip, same
normalized step `mu_base / (power + EPSILON)`, same leakage factor and
same final norm clip, with `+= mu_eff*e*fx` replaced by `-=`. -/
theorem updateWeightsNumba_eq_base_on_neg_error (w errorBlock : List ℝ)
    (fxVectors : List (List ℝ)) (mu lam : ℝ) :
    numbaControllerUpdateWeights w errorBlock fxVectors mu lam =
      updateWeights w (errorBlock.map fun e => -e) fxVectors mu lam := by
  unfold numbaControllerUpdateWeights updateWeightsNumba updateWeights
  rw [clipWeightsNormNumba_eq, numbaLoop_eq_base_neg]
  congr 1
  rw [List.zip_map_left]
  rfl

/-! ### Narrowband zero-crossing controller
(`_smart_anc_process` in `ANC/enhanced_ANC/zero_cross_anc_cli.py`) and the
configuration constants of `ANC/enhanced_ANC/config.py` it reads. -/

/-- Constant `BLOCK_SIZE = 64` from `config.py`. -/
def BLOCK_SIZE : ℕ := 64

/-- Constant `STEP_SIZE = 5e-3` from `config.py`. -/
def STEP_SIZE : ℝ := 5e-3

/-- Constant `LEAKAGE = 1e-6` from `config.py`. -/
def LEAKAGE : ℝ := 1e-6

/-- Constant `WEIGHT_UPDATE_SIGN = -1.0` from `config.py`. -/
def WEIGHT_UPDATE_SIGN : ℝ := -1

/-- Constant `ERROR_INPUT_CHANNEL = 0` from `config.py`. -/
def ERROR_INPUT_CHANNEL : ℕ := 0

/-- Constant `REFERENCE_INPUT_CHANNEL = 1` from `config.py`. -/
def REFERENCE_INPUT_CHANNEL : ℕ := 1

/-- Constant `CONTROL_OUTPUT_CHANNEL = 0` from `config.py`. -/
def CONTROL_OUTPUT_CHANNEL : ℕ := 0

/-- Loop-carried state of the `for i in range(n)` loop of
`_smart_anc_process`: state slots 0-5 plus the three RMS accumulators. -/
structure SmartCarry where
  prevRef : ℝ
  phase : ℝ
  samplesSince : ℝ
  freqHz : ℝ
  wa : ℝ
  wb : ℝ
  sumRefSq : ℝ
  sumErrSq : ℝ
  sumOutSq : ℝ

/-- One iteration of the per-sample loop of `_smart_anc_process`:
RMS accumulation, zero-crossing detection and frequency estimate (EMA with
`alpha = 0.1`, accepted only in the 50-1000 Hz band), sine/cosine
synthesis, the two-coefficient LMS update with `WEIGHT_UPDATE_SIGN`,
leakage, output clipping to `[-1, 1]`, and phase advance with wrap.
Returns the new carry and the output sample written to `out_block[i]`. -/
def smartSample (sampleRate stepSize leakage : ℝ) (c : SmartCarry)
    (refSample errSample : ℝ) : SmartCarry × ℝ :=
  let alpha : ℝ := 0.1
  let sumRefSq := c.sumRefSq + refSample * refSample
  let sumErrSq := c.sumErrSq + errSample * errSample
  let crossing := (0 ≤ refSample ∧ c.prevRef < 0) ∨
    (refSample < 0 ∧ 0 ≤ c.prevRef)
  let fs : ℝ × ℝ :=
    if crossing ∧ 1 < c.samplesSince then
      let halfPeriod := c.samplesSince
      let freqEst := sampleRate / (2 * halfPeriod)
      (if 50 < freqEst ∧ freqEst < 1000 then
        (1 - alpha) * c.freqHz + alpha * freqEst
      else c.freqHz, 0)
    else (c.freqHz, c.samplesSince)
  let freqHz := fs.1
  let samplesSince := fs.2
  let omega := 2 * Real.pi * freqHz / sampleRate
  let refSin := Real.sin c.phase
  let refCos := Real.cos c.phase
  let antiNoise := c.wa * refSin + c.wb * refCos
  let wa0 := c.wa + WEIGHT_UPDATE_SIGN * stepSize * errSample * refSin
  let wb0 := c.wb + WEIGHT_UPDATE_SIGN * stepSize * errSample * refCos
  let wa := wa0 * (1 - leakage)
  let wb := wb0 * (1 - leakage)
  let out := if 1 < antiNoise then 1 else if antiNoise < -1 then -1
    else antiNoise
  let sumOutSq := c.sumOutSq + out * out
  let phase0 := c.phase + omega
  let phase := if 2 * Real.pi < phase0 then phase0 - 2 * Real.pi else phase0
  (⟨refSample, phase, samplesSince + 1, freqHz, wa, wb,
    sumRefSq, sumErrSq, sumOutSq⟩, out)

/-- The full per-sample loop of `_smart_anc_process` over the zipped
reference/error samples, collecting the output block. -/
def smartLoop (sampleRate stepSize leakage : ℝ) :
    SmartCarry → List (ℝ × ℝ) → SmartCarry × List ℝ
  | c, [] => (c, [])
  | c, (r, e) :: rest =>
      let s := smartSample sampleRate stepSize leakage c r e
      let t := smartLoop sampleRate stepSize leakage s.1 rest
      (t.1, s.2 :: t.2)

/-- The 9-slot `state` vector of `run_auto_anc`
(`[prev, phase, samples, freq, wa, wb, ref_rms, err_rms, out_rms]`). -/
structure NState where
  prevRef : ℝ
  phase : ℝ
  samplesSince : ℝ
  freqHz : ℝ
  wa : ℝ
  wb : ℝ
  refRms : ℝ
  errRms : ℝ
  outRms : ℝ

/-- `_smart_anc_process`: loads the carry from the state vector, runs the
per-sample loop over the block, then stores the carry and the three block
RMS values back into the state vector, returning the output block. -/
def smartAncProcess (refBlock errBlock : List ℝ) (s : NState)
    (sampleRate stepSize leakage : ℝ) : NState × List ℝ :=
  let n : ℝ := refBlock.length
  let c0 : SmartCarry := ⟨s.prevRef, s.phase, s.samplesSince, s.freqHz,
    s.wa, s.wb, 0, 0, 0⟩
  let r := smartLoop sampleRate stepSize leakage c0 (refBlock.zip errBlock)
  let c := r.1
  (⟨c.prevRef, c.phase, c.samplesSince, c.freqHz, c.wa, c.wb,
    Real.sqrt (c.sumRefSq / n), Real.sqrt (c.sumErrSq / n),
    Real.sqrt (c.sumOutSq / n)⟩, r.2)

/-- Counterexample for claim C1 as stated (narrowband half).  One
per-sample update of `_smart_anc_process`, run with the configured
`STEP_SIZE = 5e-3`, `LEAKAGE = 1e-6` and `WEIGHT_UPDATE_SIGN = -1`, at
phase 0 with a unit error sample `e = -1`, takes the coefficient pair
from `sqrt(wa^2 + wb^2) = 1 = MAX_NORM` (wa = 0, wb = 1) to
`(1 + 5e-3) * (1 - 1e-6) > MAX_NORM`: the zero-crossing controller
applies no norm clip to `(wa, wb)`, so the claimed invariant fails. -/
theorem smartSample_norm_exceeds_MAX_NORM :
    Real.sqrt ((0:ℝ) * 0 + 1 * 1) ≤ MAX_NORM ∧
    MAX_NORM < Real.sqrt
      ((smartSample 48000 STEP_SIZE LEAKAGE
          ⟨0, 0, 100, 200, 0, 1, 0, 0, 0⟩ 0 (-1)).1.wa *
        (smartSample 48000 STEP_SIZE LEAKAGE
          ⟨0, 0, 100, 200, 0, 1, 0, 0, 0⟩ 0 (-1)).1.wa +
       (smartSample 48000 STEP_SIZE LEAKAGE
          ⟨0, 0, 100, 200, 0, 1, 0, 0, 0⟩ 0 (-1)).1.wb *
        (smartSample 48000 STEP_SIZE LEAKAGE
          ⟨0, 0, 100, 200, 0, 1, 0, 0, 0⟩ 0 (-1)).1.wb) := by
  have hwa : (smartSample 48000 STEP_SIZE LEAKAGE
      ⟨0, 0, 100, 200, 0, 1, 0, 0, 0⟩ 0 (-1)).1.wa = 0 := by
    norm_num [smartSample, STEP_SIZE, LEAKAGE, WEIGHT_UPDATE_SIGN,
      Real.sin_zero, Real.cos_zero]
  have hwb : (smartSample 48000 STEP_SIZE LEAKAGE
      ⟨0, 0, 100, 200, 0, 1, 0, 0, 0⟩ 0 (-1)).1.wb =
      (1 + 5e-3) * (1 - 1e-6) := by
    norm_num [smartSample, STEP_SIZE, LEAKAGE, WEIGHT_UPDATE_SIGN,
      Real.sin_zero, Real.cos_zero]
  constructor
  · rw [show (0:ℝ) * 0 + 1 * 1 = 1 by norm_num, Real.sqrt_one, MAX_NORM]
  · rw [hwa, hwb, MAX_NORM]
    rw [Real.lt_sqrt (by norm_num)]
    norm_num

/-! ### Adaptation gate (`FxLMSANC._update_adaptation_gate`, lines
252-276, with the gate fields initialised in `__init__` lines 143-150).
The gate is stated over a general linear ordered field so that the same
definition serves the real-valued controller and rational test inputs. -/

/-- Gate tuning values as derived in `FxLMSANC.__init__`. -/
structure GateParams (α : Type) where
  emaAlpha : α
  stopThreshold : α
  restartThreshold : α
  holdFrames : ℕ

/-- Construction of the gate tuning in `FxLMSANC.__init__`:
`error_ema_alpha` is clipped into `[0, 1]` by `np.clip`,
`adapt_hold_frames = max(1, adapt_hold_frames)`, and
`adapt_restart_threshold = max(restart_threshold, stop_threshold)`. -/
def mkGateParams {α : Type} [LinearOrderedField α] (errorEmaAlpha : α)
    (adaptHoldFrames : ℕ) (stopThreshold restartThreshold : α) :
    GateParams α :=
  { emaAlpha := min 1 (max 0 errorEmaAlpha)
    stopThreshold := stopThreshold
    restartThreshold := max restartThreshold stopThreshold
    holdFrames := max 1 adaptHoldFrames }

/-- Mutable gate state: `adapt_enabled`, `error_smooth`,
`_error_smooth_initialized`, `_adapt_hold`. -/
structure GateState (α : Type) where
  enabled : Bool
  smooth : α
  smoothInit : Bool
  hold : ℕ
  deriving DecidableEq

/-- Gate portion of `FxLMSANC._reset_state`. -/
def gateReset {α : Type} [LinearOrderedField α] : GateState α :=
  ⟨true, 0, false, 0⟩

/-- `FxLMSANC._update_adaptation_gate`: EMA error tracking followed by the
two-state hysteresis decision. -/
def updateAdaptationGate {α : Type} [LinearOrderedField α]
    (p : GateParams α) (s : GateState α) (errorRms : α) : GateState α :=
  let s1 : GateState α :=
    if s.smoothInit = false then
      { s with smooth := errorRms, smoothInit := true }
    else
      { s with smooth := p.emaAlpha * errorRms + (1 - p.emaAlpha) * s.smooth }
  if s1.enabled then
    if s1.smooth ≤ p.stopThreshold then
      if p.holdFrames ≤ s1.hold + 1 then { s1 with enabled := false, hold := 0 }
      else { s1 with hold := s1.hold + 1 }
    else { s1 with hold := 0 }
  else
    if p.restartThreshold ≤ s1.smooth then
      if p.holdFrames ≤ s1.hold + 1 then { s1 with enabled := true, hold := 0 }
      else { s1 with hold := s1.hold + 1 }
    else { s1 with hold := 0 }

/-! ### Block synthesis (`FxLMSANC._synthesize_block`, lines 562-599) -/

/-- Delay lines `ref_history`, `sec_history`, `fx_history`. -/
structure SynthHistories where
  refHistory : List ℝ
  secHistory : List ℝ
  fxHistory : List ℝ

/-- One iteration of the per-sample loop of `_synthesize_block`: shift
`x_n` into the reference history, compute `y[n] = w . ref_history`, shift
the secondary delay line and filter it, shift the filtered sample into
the filtered-x history, and record that history as the filtered-reference
vector for this sample. -/
def synthSample (weights secondaryPath : List ℝ) (h : SynthHistories)
    (x : ℝ) : SynthHistories × ℝ × List ℝ :=
  let refHistory := x :: h.refHistory.dropLast
  let antiSample := dot weights refHistory
  let secHistory := x :: h.secHistory.dropLast
  let filteredSample := dot secondaryPath secHistory
  let fxHistory := filteredSample :: h.fxHistory.dropLast
  (⟨refHistory, secHistory, fxHistory⟩, antiSample, fxHistory)

/-- The loop of `_synthesize_block` over the reference block, collecting
the anti-noise samples and the filtered-reference vectors. -/
def synthLoop (weights secondaryPath : List ℝ) :
    SynthHistories → List ℝ → SynthHistories × List ℝ × List (List ℝ)
  | h, [] => (h, [], [])
  | h, x :: rest =>
      let s := synthSample weights secondaryPath h x
      let t := synthLoop weights secondaryPath s.1 rest
      (t.1, s.2.1 :: t.2.1, s.2.2 :: t.2.2)

/-- `FxLMSANC._synthesize_block`. -/
def synthesizeBlock (weights secondaryPath : List ℝ) (h : SynthHistories)
    (refBlock : List ℝ) : SynthHistories × List ℝ × List (List ℝ) :=
  synthLoop weights secondaryPath h refBlock

/-! ### Reference low-pass and reference-block fetch -/

/-- The per-sample loop of `_apply_reference_lowpass`:
`state += alpha * (sample - state)`. -/
def lowpassLoop (alpha : ℝ) : ℝ → List ℝ → List ℝ × ℝ
  | state, [] => ([], state)
  | state, x :: rest =>
      let st := state + alpha * (x - state)
      let t := lowpassLoop alpha st rest
      (st :: t.1, t.2)

/-- `FxLMSANC._apply_reference_lowpass`: identity when no cutoff is
configured, otherwise the one-pole filter; returns the filtered block and
the final filter state. -/
def applyReferenceLowpass (alphaOpt : Option ℝ) (state : ℝ)
    (block : List ℝ) : List ℝ × ℝ :=
  match alphaOpt with
  | none => (block, state)
  | some alpha => lowpassLoop alpha state block

/-- `FxLMSANC._next_reference_block` with `loop=False`.  The recursive
call in the source only ever happens with `loop=False`, so the recursion
bottoms out in this function.  Returns the block and the new
`reference_index`. -/
def nextReferenceBlockNoLoop (referenceSignal : List ℝ)
    (blockSize idx : ℕ) : List ℝ × ℕ :=
  if referenceSignal.length ≤ idx then (List.replicate blockSize 0, idx)
  else
    let block := (referenceSignal.drop idx).take blockSize
    if block.length < blockSize then
      (block ++ List.replicate (blockSize - block.length) 0,
        referenceSignal.length)
    else (block, idx + blockSize)

/-- `FxLMSANC._next_reference_block` with `loop=True`: wraps around to the
start of the reference signal, splicing the head of the next pass onto a
short tail block. -/
def nextReferenceBlockLoop (referenceSignal : List ℝ)
    (blockSize idx : ℕ) : List ℝ × ℕ :=
  if referenceSignal.length ≤ idx then
    nextReferenceBlockNoLoop referenceSignal blockSize 0
  else
    let block := (referenceSignal.drop idx).take blockSize
    if block.length < blockSize then
      let remaining := blockSize - block.length
      let inner := (nextReferenceBlockNoLoop referenceSignal blockSize 0).1
      (block ++ inner.take remaining, remaining)
    else (block, idx + blockSize)

/-- `FxLMSANC._next_reference_block` (file-backed reference case). -/
def nextReferenceBlock (referenceSignal : List ℝ) (blockSize idx : ℕ)
    (loop : Bool) : List ℝ × ℕ :=
  if loop then nextReferenceBlockLoop referenceSignal blockSize idx
  else nextReferenceBlockNoLoop referenceSignal blockSize idx

/-- Block RMS, `float(np.sqrt(np.mean(block**2)))`. -/
def rms (l : List ℝ) : ℝ := Real.sqrt (sumSq l / l.length)

/-- The `AncMetrics` dataclass. -/
structure AncMetrics where
  frameIndex : ℕ
  errorRms : ℝ
  stepSize : ℝ
  referenceRms : ℝ
  outputRms : ℝ

/-! ### The `run` audio callback of `FxLMSANC` (lines 447-514) -/

/-- Static controller configuration consumed by the audio callback. -/
structure FxConfig where
  blockSize : ℕ
  controlOutputChannel : ℕ
  errorChannelIndex : ℕ
  referenceChannelIndex : ℕ
  refFromRecordStream : Bool
  liveReference : Bool
  splitReferenceChannels : Bool
  playReference : Bool
  manualGainMode : Bool
  manualGain : ℝ
  controlOutputGain : ℝ
  lowpassAlpha : Option ℝ
  secondaryPath : List ℝ
  baseStepSize : ℝ
  leakage : ℝ
  gate : GateParams ℝ
  referenceSignal : List ℝ
  loopReference : Bool
  metricsEnabled : Bool

/-- Mutable controller state touched by the audio callback. -/
structure FxState where
  weights : List ℝ
  hist : SynthHistories
  referenceIndex : ℕ
  frameIndex : ℕ
  lowpassState : ℝ
  gate : GateState ℝ
  stopRequested : Bool
  callbackStatus : Option Bool

/-- The `if status and self._callback_status is None` bookkeeping at the
top of the callback. -/
def statusUpdate (s : FxState) (statusIn : Bool) : FxState :=
  if statusIn ∧ s.callbackStatus = none then
    { s with callbackStatus := some statusIn }
  else s

/-- Result of one callback invocation: either the stream is stopped
(`raise sd.CallbackStop` before any output is written) or an output
buffer (as a channel-indexed family of sample lists), the new state and
an optional metrics sample are produced. -/
inductive CallbackResult where
  | stopped (s : FxState)
  | normal (out : ℕ → List ℝ) (s : FxState) (metrics : Option AncMetrics)

/-- The `outdata.fill(0.0)` plus channel writes of the callback: channel
columns not written stay zero; written columns are elementwise
`np.clip(.., -1.0, 1.0)` of the reference / anti-noise data. -/
def outdataWrite (cfg : FxConfig) (referenceBlock scaledAntiNoise : List ℝ) :
    ℕ → List ℝ :=
  if cfg.splitReferenceChannels then
    let left := if cfg.playReference ∧ ¬cfg.liveReference then referenceBlock
      else List.replicate referenceBlock.length 0
    fun ch =>
      if ch = 0 then left.map npClip
      else if ch = 1 then scaledAntiNoise.map npClip
      else List.replicate cfg.blockSize 0
  else
    let outputBlock :=
      if cfg.playReference ∧ ¬cfg.liveReference then
        (List.zipWith (· + ·) referenceBlock scaledAntiNoise).map npClip
      else scaledAntiNoise.map npClip
    fun ch => if ch = cfg.controlOutputChannel then outputBlock
      else List.replicate cfg.blockSize 0

/-- The `audio_callback` closure of `FxLMSANC.run`: status bookkeeping,
stop check, short-block early return, reference selection, optional
low-pass, synthesis (or manual gain), output write with clipping, gate
update, conditional weight update, optional metrics sample, frame-count
increment, and end-of-reference stop request. -/
def audioCallback (cfg : FxConfig) (s0 : FxState) (indata : ℕ → List ℝ)
    (frames : ℕ) (statusIn : Bool) : CallbackResult :=
  let s := statusUpdate s0 statusIn
  if s.stopRequested then .stopped s
  else if frames ≠ cfg.blockSize then
    .normal (fun _ => List.replicate frames 0) s none
  else
    let refFetch : List ℝ × ℕ :=
      if cfg.refFromRecordStream then
        (indata cfg.referenceChannelIndex, s.referenceIndex)
      else if cfg.liveReference then (indata 0, s.referenceIndex)
      else nextReferenceBlock cfg.referenceSignal cfg.blockSize
        s.referenceIndex cfg.loopReference
    let referenceBlock := refFetch.1
    let lp := applyReferenceLowpass cfg.lowpassAlpha s.lowpassState
      referenceBlock
    let adaptBlock := lp.1
    let synth : List ℝ × Option (List (List ℝ)) × SynthHistories :=
      if cfg.manualGainMode then
        (adaptBlock.map fun x => cfg.manualGain * x, none, s.hist)
      else
        let r := synthesizeBlock s.weights cfg.secondaryPath s.hist adaptBlock
        (r.2.1, some r.2.2, r.1)
    let scaledAntiNoise := synth.1.map fun x => x * cfg.controlOutputGain
    let errorBlock := indata cfg.errorChannelIndex
    let out := outdataWrite cfg referenceBlock scaledAntiNoise
    let errorRms := rms errorBlock
    let gate := updateAdaptationGate cfg.gate s.gate errorRms
    let weights :=
      if cfg.manualGainMode = false ∧ gate.enabled = true ∧
          synth.2.1.isSome = true then
        updateWeights s.weights errorBlock (synth.2.1.getD [])
          cfg.baseStepSize cfg.leakage
      else s.weights
    let metrics : Option AncMetrics :=
      if cfg.metricsEnabled then
        some ⟨s.frameIndex, errorRms, cfg.baseStepSize, rms referenceBlock,
          rms (out cfg.controlOutputChannel)⟩
      else none
    let endOfReference : Bool := !cfg.liveReference && !cfg.loopReference &&
      decide (cfg.referenceSignal.length ≤ refFetch.2)
    .normal out
      { weights := weights, hist := synth.2.2, referenceIndex := refFetch.2,
        frameIndex := s.frameIndex + 1, lowpassState := lp.2, gate := gate,
        stopRequested := s.stopRequested || endOfReference,
        callbackStatus := s.callbackStatus } metrics

/-- Output extraction from a callback result; a stopped callback wrote no
samples. -/
def callbackOut : CallbackResult → ℕ → List ℝ
  | .stopped _ => fun _ => []
  | .normal out _ _ => out

/-- The audio callback of `run_auto_anc` in `zero_cross_anc_cli.py`:
zero-fills and returns on a frame-count mismatch, otherwise copies the
reference and error channels into the buffers, runs `_smart_anc_process`
with step size and leakage zeroed while adaptation is off, and writes the
output block to the control output channel (other channels zero). -/
def zcAudioCallback (adaptationActive : Bool) (s : NState)
    (indata : ℕ → List ℝ) (frames : ℕ) (sampleRate : ℝ) :
    NState × (ℕ → List ℝ) :=
  if frames ≠ BLOCK_SIZE then (s, fun _ => List.replicate frames 0)
  else
    let refBuf := indata REFERENCE_INPUT_CHANNEL
    let errBuf := indata ERROR_INPUT_CHANNEL
    let stepSize := if adaptationActive then STEP_SIZE else 0
    let leakage := if adaptationActive then LEAKAGE else 0
    let r := smartAncProcess refBuf errBuf s sampleRate stepSize leakage
    (r.1, fun ch => if ch = CONTROL_OUTPUT_CHANNEL then r.2
      else List.replicate BLOCK_SIZE 0)

/-! ### Claim C2: output samples lie in the unit interval -/

lemma npClip_bounds (x : ℝ) : -1 ≤ npClip x ∧ npClip x ≤ 1 := by
  unfold npClip
  exact ⟨le_min (by norm_num) (le_max_left _ _), min_le_left _ _⟩

lemma getD_unit {l : List ℝ} (h : ∀ x ∈ l, -1 ≤ x ∧ x ≤ 1) (i : ℕ) :
    -1 ≤ l.getD i 0 ∧ l.getD i 0 ≤ 1 := by
  by_cases hi : i < l.length
  · rw [List.getD_eq_getElem l 0 hi]
    exact h _ (List.getElem_mem hi)
  · rw [List.getD_eq_default _ _ (not_lt.mp hi)]
    norm_num

lemma replicate_zero_unit (n i : ℕ) :
    -1 ≤ (List.replicate n (0:ℝ)).getD i 0 ∧
      (List.replicate n (0:ℝ)).getD i 0 ≤ 1 :=
  getD_unit (fun x hx => by rw [List.eq_of_mem_replicate hx]; norm_num) i

lemma map_npClip_unit (l : List ℝ) : ∀ x ∈ l.map npClip, -1 ≤ x ∧ x ≤ 1 := by
  intro x hx
  rcases List.mem_map.mp hx with ⟨y, _, rfl⟩
  exact npClip_bounds y

lemma outdataWrite_unit (cfg : FxConfig) (rb sa : List ℝ) (ch i : ℕ) :
    -1 ≤ (outdataWrite cfg rb sa ch).getD i 0 ∧
      (outdataWrite cfg rb sa ch).getD i 0 ≤ 1 := by
  simp only [outdataWrite, ite_apply]
  split_ifs
  all_goals
    first
      | exact getD_unit (map_npClip_unit _) i
      | exact replicate_zero_unit _ _

lemma audioCallback_out_unit (cfg : FxConfig) (s0 : FxState)
    (indata : ℕ → List ℝ) (frames : ℕ) (statusIn : Bool) (ch i : ℕ) :
    -1 ≤ (callbackOut (audioCallback cfg s0 indata frames statusIn) ch).getD
        i 0 ∧
      (callbackOut (audioCallback cfg s0 indata frames statusIn) ch).getD
        i 0 ≤ 1 := by
  unfold audioCallback
  by_cases h1 : (statusUpdate s0 statusIn).stopRequested = true
  · simp only [if_pos h1, callbackOut]
    simp [List.getD]
  · simp only [if_neg h1]
    by_cases h2 : frames ≠ cfg.blockSize
    · simp only [if_pos h2, callbackOut]
      exact replicate_zero_unit _ _
    · simp only [if_neg h2, callbackOut]
      exact outdataWrite_unit _ _ _ _ _

lemma smartSample_out_unit (sr mu lam : ℝ) (c : SmartCarry) (r e : ℝ) :
    -1 ≤ (smartSample sr mu lam c r e).2 ∧
      (smartSample sr mu lam c r e).2 ≤ 1 := by
  simp only [smartSample]
  split_ifs with h1 h2
  · exact ⟨by norm_num, le_refl 1⟩
  · exact ⟨le_refl (-1), by norm_num⟩
  · exact ⟨not_lt.mp h2, not_lt.mp h1⟩

lemma smartLoop_out_unit (sr mu lam : ℝ) :
    ∀ (pairs : List (ℝ × ℝ)) (c : SmartCarry),
      ∀ y ∈ (smartLoop sr mu lam c pairs).2, -1 ≤ y ∧ y ≤ 1 := by
  intro pairs
  induction pairs with
  | nil => intro c y hy; simp [smartLoop] at hy
  | cons p rest ih =>
      intro c y hy
      obtain ⟨r, e⟩ := p
      simp only [smartLoop, List.mem_cons] at hy
      rcases hy with rfl | hy
      · exact smartSample_out_unit sr mu lam c r e
      · exact ih _ y hy

lemma smartAncProcess_out_unit (rb eb : List ℝ) (s : NState)
    (sr mu lam : ℝ) :
    ∀ y ∈ (smartAncProcess rb eb s sr mu lam).2, -1 ≤ y ∧ y ≤ 1 := by
  intro y hy
  simp only [smartAncProcess] at hy
  exact smartLoop_out_unit sr mu lam _ _ y hy

lemma zcAudioCallback_out_unit (act : Bool) (s : NState)
    (indata : ℕ → List ℝ) (frames : ℕ) (sr : ℝ) (ch i : ℕ) :
    -1 ≤ ((zcAudioCallback act s indata frames sr).2 ch).getD i 0 ∧
      ((zcAudioCallback act s indata frames sr).2 ch).getD i 0 ≤ 1 := by
  unfold zcAudioCallback
  by_cases h : frames ≠ BLOCK_SIZE
  · simp only [if_pos h]
    exact replicate_zero_unit _ _
  · simp only [if_neg h]
    by_cases hch : ch = CONTROL_OUTPUT_CHANNEL
    · simp only [if_pos hch]
      exact getD_unit (smartAncProcess_out_unit _ _ _ _ _ _) i
    · simp only [if_neg hch]
      exact replicate_zero_unit _ _

/-- Claim C2.  Every sample either audio callback writes to its output
buffer lies in `[-1, 1]`: the FxLMS callback clips each channel it writes
elementwise with `np.clip(.., -1, 1)` and zero-fills the rest, and the
narrowband synthesis clips each anti-noise sample before storing it in
the output block (reading any entry of any output channel, with 0 for
the untouched positions, stays in the interval). -/
theorem output_samples_in_unit_interval :
    (∀ (cfg : FxConfig) (s0 : FxState) (indata : ℕ → List ℝ) (frames : ℕ)
        (statusIn : Bool) (ch i : ℕ),
      -1 ≤ (callbackOut (audioCallback cfg s0 indata frames statusIn)
          ch).getD i 0 ∧
        (callbackOut (audioCallback cfg s0 indata frames statusIn)
          ch).getD i 0 ≤ 1) ∧
    (∀ (act : Bool) (s : NState) (indata : ℕ → List ℝ) (frames : ℕ)
        (sr : ℝ) (ch i : ℕ),
      -1 ≤ ((zcAudioCallback act s indata frames sr).2 ch).getD i 0 ∧
        ((zcAudioCallback act s indata frames sr).2 ch).getD i 0 ≤ 1) :=
  ⟨fun cfg s0 indata frames statusIn ch i =>
      audioCallback_out_unit cfg s0 indata frames statusIn ch i,
    fun act s indata frames sr ch i =>
      zcAudioCallback_out_unit act s indata frames sr ch i⟩

/-! ### Claim C10: a block with the wrong frame count is a no-op -/

lemma statusUpdate_fields (s : FxState) (statusIn : Bool) :
    (statusUpdate s statusIn).weights = s.weights ∧
    (statusUpdate s statusIn).hist = s.hist ∧
    (statusUpdate s statusIn).referenceIndex = s.referenceIndex ∧
    (statusUpdate s statusIn).frameIndex = s.frameIndex ∧
    (statusUpdate s statusIn).lowpassState = s.lowpassState ∧
    (statusUpdate s statusIn).gate = s.gate ∧
    (statusUpdate s statusIn).stopRequested = s.stopRequested := by
  unfold statusUpdate
  split_ifs <;> exact ⟨rfl, rfl, rfl, rfl, rfl, rfl, rfl⟩

/-- Claim C10.  When the driver delivers a block whose frame count differs
from the configured block size, both audio callbacks write an all-zero
output block and return without touching the adaptive state: the FxLMS
callback returns with weights, delay-line histories, reference index,
frame counter, low-pass state and adaptation-gate state unchanged and
publishes no metrics sample, and the zero-crossing callback returns the
narrowband state vector exactly as it was. -/
theorem short_block_leaves_state_unchanged
    (cfg : FxConfig) (s0 : FxState) (indata : ℕ → List ℝ) (frames : ℕ)
    (statusIn : Bool) (act : Bool) (zs : NState) (zindata : ℕ → List ℝ)
    (zframes : ℕ) (sr : ℝ)
    (hstop : s0.stopRequested = false) (hframes : frames ≠ cfg.blockSize)
    (hzframes : zframes ≠ BLOCK_SIZE) :
    (∃ s', audioCallback cfg s0 indata frames statusIn =
        .normal (fun _ => List.replicate frames 0) s' none ∧
      s'.weights = s0.weights ∧ s'.hist = s0.hist ∧
      s'.referenceIndex = s0.referenceIndex ∧
      s'.frameIndex = s0.frameIndex ∧
      s'.lowpassState = s0.lowpassState ∧ s'.gate = s0.gate) ∧
    zcAudioCallback act zs zindata zframes sr =
      (zs, fun _ => List.replicate zframes 0) := by
  constructor
  · refine ⟨statusUpdate s0 statusIn, ?_,
      (statusUpdate_fields s0 statusIn).1,
      (statusUpdate_fields s0 statusIn).2.1,
      (statusUpdate_fields s0 statusIn).2.2.1,
      (statusUpdate_fields s0 statusIn).2.2.2.1,
      (statusUpdate_fields s0 statusIn).2.2.2.2.1,
      (statusUpdate_fields s0 statusIn).2.2.2.2.2.1⟩
    have hs : (statusUpdate s0 statusIn).stopRequested = false := by
      rw [(statusUpdate_fields s0 statusIn).2.2.2.2.2.2]
      exact hstop
    simp only [audioCallback, hs]
    simp [hframes]
  · unfold zcAudioCallback
    rw [if_pos hzframes]

/-- Concrete configuration used only to instantiate witnesses. -/
def demoFxConfig : FxConfig :=
  ⟨64, 0, 0, 1, false, false, false, false, false, 0, 1, none, [1], 5e-5,
    1e-4, ⟨0.05, 0.01, 0.02, 50⟩, [], false, false⟩

/-- Concrete controller state used only to instantiate witnesses. -/
def demoFxState : FxState :=
  ⟨[0], ⟨[0], [0], [0]⟩, 0, 0, 0, gateReset, false, none⟩

/-- Concrete narrowband state used only to instantiate witnesses
(the initial state of `run_auto_anc`: `state[3] = 200`, `state[2] = 100`). -/
def demoNState : NState := ⟨0, 0, 100, 200, 0, 0, 0, 0, 0⟩

/-- Witness for claim C10 at a concrete configuration: a 1-frame block
against block size 64. -/
theorem short_block_leaves_state_unchanged_witness :
    demoFxState.stopRequested = false ∧ (1:ℕ) ≠ demoFxConfig.blockSize ∧
    (1:ℕ) ≠ BLOCK_SIZE ∧
    ((∃ s', audioCallback demoFxConfig demoFxState (fun _ => []) 1 false =
        .normal (fun _ => List.replicate 1 0) s' none ∧
      s'.weights = demoFxState.weights ∧ s'.hist = demoFxState.hist ∧
      s'.referenceIndex = demoFxState.referenceIndex ∧
      s'.frameIndex = demoFxState.frameIndex ∧
      s'.lowpassState = demoFxState.lowpassState ∧
      s'.gate = demoFxState.gate) ∧
    zcAudioCallback false demoNState (fun _ => []) 1 48000 =
      (demoNState, fun _ => List.replicate 1 0)) :=
  ⟨rfl, by decide, by decide,
    short_block_leaves_state_unchanged demoFxConfig demoFxState
      (fun _ => []) 1 false false demoNState (fun _ => []) 1 48000 rfl
      (by decide) (by decide)⟩

/-! ### Claim C6: silence performs no weight update -/

lemma allZero_dropLast {l : List ℝ} (h : ∀ x ∈ l, x = 0) :
    ∀ x ∈ l.dropLast, x = 0 := fun x hx => h x (List.dropLast_subset l hx)

lemma dot_zero_right : ∀ (a b : List ℝ), (∀ x ∈ b, x = 0) → dot a b = 0
  | [], _, _ => by simp [dot]
  | _ :: _, [], _ => by simp [dot]
  | x :: xs, y :: ys, h => by
      have hy : y = 0 := h y (List.mem_cons_self _ _)
      have hrest : dot xs ys = 0 :=
        dot_zero_right xs ys fun z hz => h z (List.mem_cons_of_mem _ hz)
      simp only [dot, List.zipWith_cons_cons, List.sum_cons] at hrest ⊢
      rw [hy, hrest]
      ring

lemma synthLoop_fx_zero (w sp : List ℝ) :
    ∀ (refBlock : List ℝ) (h : SynthHistories),
      (∀ x ∈ refBlock, x = 0) → (∀ x ∈ h.secHistory, x = 0) →
      (∀ x ∈ h.fxHistory, x = 0) →
      ∀ v ∈ (synthLoop w sp h refBlock).2.2, ∀ x ∈ v, x = 0 := by
  intro refBlock
  induction refBlock with
  | nil => intro h _ _ _ v hv; simp [synthLoop] at hv
  | cons r rest ih =>
      intro h href hsec hfx v hv
      have hr : r = 0 := href r (List.mem_cons_self _ _)
      have hsec' : ∀ x ∈ (r :: h.secHistory.dropLast), x = 0 := by
        intro x hx
        rcases List.mem_cons.mp hx with rfl | hx
        · exact hr
        · exact allZero_dropLast hsec x hx
      have hfil : dot sp (r :: h.secHistory.dropLast) = 0 :=
        dot_zero_right _ _ hsec'
      have hfx' : ∀ x ∈ (dot sp (r :: h.secHistory.dropLast) ::
          h.fxHistory.dropLast), x = 0 := by
        intro x hx
        rcases List.mem_cons.mp hx with rfl | hx
        · exact hfil
        · exact allZero_dropLast hfx x hx
      simp only [synthLoop, synthSample, List.mem_cons] at hv
      rcases hv with rfl | hv
      · exact hfx'
      · exact ih _ (fun x hx => href x (List.mem_cons_of_mem _ hx)) hsec'
          hfx' v hv

lemma updateWeightsLoop_zero_fx (mu lam : ℝ) :
    ∀ (pairs : List (ℝ × List ℝ)) (w : List ℝ),
      (∀ p ∈ pairs, ∀ x ∈ p.2, x = 0) →
      updateWeightsLoop mu lam w pairs = w := by
  intro pairs
  induction pairs with
  | nil => intro w _; rfl
  | cons p rest ih =>
      intro w hp
      obtain ⟨e, fx⟩ := p
      have hfx : ∀ x ∈ fx, x = 0 :=
        fun x hx => hp (e, fx) (List.mem_cons_self _ _) x hx
      have hpow : dot fx fx = 0 := dot_zero_right _ _ hfx
      have hs : updateWeightsSample mu lam w e fx = w := by
        simp only [updateWeightsSample]
        rw [hpow, if_pos (by norm_num [MIN_REFERENCE_POWER])]
      simp only [updateWeightsLoop, hs]
      exact ih w fun q hq => hp q (List.mem_cons_of_mem _ hq)

lemma clipWeightsNorm_eq_self {w : List ℝ} (h : l2norm w ≤ MAX_NORM) :
    clipWeightsNorm w = w := by
  unfold clipWeightsNorm
  rw [if_neg (not_lt.mpr h)]

/-- Claim C6.  Given an all-zero reference block and all-zero error block
(and all-zero secondary / filtered-x delay lines, as holds from reset
under constant silence), every filtered-reference vector produced by
`_synthesize_block` is zero, its power `0` is below
`MIN_REFERENCE_POWER`, so `_update_weights` skips the update for every
sample of the block; provided the weights already satisfy
`l2norm weights ≤ MAX_NORM`, the weight vector after the block equals
its prior value exactly. -/
theorem zero_reference_block_preserves_weights
    (w secondaryPath refBlock errBlock : List ℝ) (h : SynthHistories)
    (mu lam : ℝ)
    (href : ∀ x ∈ refBlock, x = 0) (herr : ∀ x ∈ errBlock, x = 0)
    (hsec : ∀ x ∈ h.secHistory, x = 0) (hfx : ∀ x ∈ h.fxHistory, x = 0)
    (hw : l2norm w ≤ MAX_NORM) :
    updateWeights w errBlock
      (synthesizeBlock w secondaryPath h refBlock).2.2 mu lam = w := by
  unfold updateWeights synthesizeBlock
  have hfxall := synthLoop_fx_zero w secondaryPath refBlock h href hsec hfx
  rw [updateWeightsLoop_zero_fx mu lam _ w ?_]
  · exact clipWeightsNorm_eq_self hw
  · intro p hp
    obtain ⟨e, fx⟩ := p
    exact hfxall fx (List.of_mem_zip hp).2

/-- Witness for claim C6 at a concrete instance: weights `[1/2]`,
secondary path `[1]`, one-sample zero blocks, zero histories. -/
theorem zero_reference_block_preserves_weights_witness :
    (∀ x ∈ [(0:ℝ)], x = 0) ∧
    (∀ x ∈ (⟨[0], [0], [0]⟩ : SynthHistories).secHistory, x = 0) ∧
    (∀ x ∈ (⟨[0], [0], [0]⟩ : SynthHistories).fxHistory, x = 0) ∧
    l2norm [(1:ℝ)/2] ≤ MAX_NORM ∧
    updateWeights [(1:ℝ)/2] [0]
      (synthesizeBlock [(1:ℝ)/2] [1] ⟨[0], [0], [0]⟩ [0]).2.2 1 0 =
      [(1:ℝ)/2] := by
  have hz : ∀ x ∈ [(0:ℝ)], x = 0 := by intro x hx; simpa using hx
  have hw : l2norm [(1:ℝ)/2] ≤ MAX_NORM := by
    rw [MAX_NORM, l2norm, Real.sqrt_le_one]
    norm_num [sumSq]
  exact ⟨hz, hz, hz, hw,
    zero_reference_block_preserves_weights [(1:ℝ)/2] [1] [0] [0]
      ⟨[0], [0], [0]⟩ 1 0 hz hz hz hz hw⟩

/-! ### Claim C4: gate ENABLED to DISABLED timing and hold-counter reset -/

lemma gate_const_run {α : Type} [LinearOrderedField α] (p : GateParams α)
    (r : α) (hr : r ≤ p.stopThreshold) :
    ∀ k, k < p.holdFrames →
      (fun st => updateAdaptationGate p st r)^[k] gateReset =
        (if k = 0 then gateReset else ⟨true, r, true, k⟩ : GateState α) := by
  intro k
  induction k with
  | zero => intro _; simp
  | succ j ih =>
      intro hj
      have hj' : j < p.holdFrames := Nat.lt_of_succ_lt hj
      rw [Function.iterate_succ_apply', ih hj']
      by_cases h0 : j = 0
      · subst h0
        have h2 : ¬(p.holdFrames ≤ 0 + 1) := by omega
        simp [updateAdaptationGate, gateReset, hr, h2]
      · obtain ⟨m, rfl⟩ := Nat.exists_eq_succ_of_ne_zero h0
        have hema : p.emaAlpha * r + (1 - p.emaAlpha) * r = r := by ring
        have h2 : ¬(p.holdFrames ≤ m + 1 + 1) := by omega
        simp [updateAdaptationGate, hema, hr, h2]

lemma gate_const_run_disables {α : Type} [LinearOrderedField α]
    (p : GateParams α) (r : α) (hr : r ≤ p.stopThreshold)
    (hhf : 1 ≤ p.holdFrames) :
    (fun st => updateAdaptationGate p st r)^[p.holdFrames] gateReset =
      (⟨false, r, true, 0⟩ : GateState α) := by
  obtain ⟨m, hm⟩ : ∃ m, p.holdFrames = m + 1 := ⟨p.holdFrames - 1, by omega⟩
  rw [hm, Function.iterate_succ_apply',
    gate_const_run p r hr m (by omega)]
  by_cases h0 : m = 0
  · subst h0
    have h2 : p.holdFrames ≤ 0 + 1 := by omega
    simp [updateAdaptationGate, gateReset, hr, h2]
  · obtain ⟨k, rfl⟩ := Nat.exists_eq_succ_of_ne_zero h0
    have hema : p.emaAlpha * r + (1 - p.emaAlpha) * r = r := by ring
    have h2 : p.holdFrames ≤ k + 1 + 1 := by omega
    simp [updateAdaptationGate, hema, hr, h2]

/-- Claim C4.  Starting from the reset gate state (ENABLED, hold counter
zero, smoothed error uninitialised), a constant per-block error RMS `r`
strictly below `stop_threshold` keeps the gate ENABLED on every block
before the `hold_frames`-th and flips it to DISABLED (with the hold
counter cleared) exactly on the `hold_frames`-th block; moreover from any
ENABLED state, a block whose EMA-smoothed error exceeds `stop_threshold`
resets the hold counter to zero and leaves the gate ENABLED, so a full
`hold_frames` run of quiet blocks is required again. -/
theorem adaptation_gate_hold_frames_timing {α : Type}
    [LinearOrderedField α] (p : GateParams α) (r : α)
    (hr : r < p.stopThreshold) (hhf : 1 ≤ p.holdFrames) :
    (∀ k, k < p.holdFrames →
      ((fun st => updateAdaptationGate p st r)^[k] gateReset).enabled
        = true) ∧
    ((fun st => updateAdaptationGate p st r)^[p.holdFrames]
      gateReset).enabled = false ∧
    ((fun st => updateAdaptationGate p st r)^[p.holdFrames]
      gateReset).hold = 0 ∧
    (∀ (s : GateState α) (x : α), s.enabled = true → s.smoothInit = true →
      p.stopThreshold < p.emaAlpha * x + (1 - p.emaAlpha) * s.smooth →
      (updateAdaptationGate p s x).hold = 0 ∧
      (updateAdaptationGate p s x).enabled = true) := by
  refine ⟨?_, ?_, ?_, ?_⟩
  · intro k hk
    rw [gate_const_run p r hr.le k hk]
    by_cases h0 : k = 0 <;> simp [h0, gateReset]
  · rw [gate_const_run_disables p r hr.le hhf]
  · rw [gate_const_run_disables p r hr.le hhf]
  · intro s x hen hinit hhi
    simp [updateAdaptationGate, hen, hinit, not_le.mpr hhi]

/-- Concrete rational gate tuning used only to instantiate witnesses. -/
def demoGateParams : GateParams ℚ := ⟨1/2, 1, 2, 3⟩

/-- Witness for claim C4 over the rationals: stop threshold 1, hold
frames 3, constant error RMS 0. -/
theorem adaptation_gate_hold_frames_timing_witness :
    ((0:ℚ) < demoGateParams.stopThreshold) ∧
    (1 ≤ demoGateParams.holdFrames) ∧
    ((∀ k, k < demoGateParams.holdFrames →
      ((fun st => updateAdaptationGate demoGateParams st (0:ℚ))^[k]
        gateReset).enabled = true) ∧
    ((fun st => updateAdaptationGate demoGateParams st (0:ℚ))^[
      demoGateParams.holdFrames] gateReset).enabled = false ∧
    ((fun st => updateAdaptationGate demoGateParams st (0:ℚ))^[
      demoGateParams.holdFrames] gateReset).hold = 0 ∧
    (∀ (s : GateState ℚ) (x : ℚ), s.enabled = true → s.smoothInit = true →
      demoGateParams.stopThreshold <
        demoGateParams.emaAlpha * x +
          (1 - demoGateParams.emaAlpha) * s.smooth →
      (updateAdaptationGate demoGateParams s x).hold = 0 ∧
      (updateAdaptationGate demoGateParams s x).enabled = true)) :=
  ⟨by norm_num [demoGateParams], by norm_num [demoGateParams],
    adaptation_gate_hold_frames_timing demoGateParams 0
      (by norm_num [demoGateParams]) (by norm_num [demoGateParams])⟩

/-! ### Claim C3: baseline/freeze session state machine
(the monitoring loop of `run_auto_anc`, lines 269-316). -/

/-- Freeze/baseline configuration of `run_auto_anc` (values come from
`config.py`), plus the loop-entry timestamp `baseline_start`. -/
structure FreezeParams where
  freezeAdaptation : Bool
  freezeRelativeDrop : ℝ
  freezeMinSeconds : ℝ
  freezeBaselineMinErr : ℝ
  baselineDuration : ℝ
  baselineStart : ℝ

/-- Monitoring-loop state of `run_auto_anc`: the baseline / adaptation
flags, baseline accumulator and count, `baseline_err` (`none` models
Python `None`), `best_err` as an extended real (`⊤` models
`float("inf")`), the freeze announcement flag and the ANC enable
timestamp. -/
structure LoopState where
  baselineActive : Bool
  adaptationActive : Bool
  baselineSum : ℝ
  baselineCount : ℕ
  baselineErr : Option ℝ
  bestErr : EReal
  freezeAnnounced : Bool
  ancEnabledAt : Option ℝ

/-- One iteration of the `while True` monitoring loop of `run_auto_anc`
(after `time.sleep`), fed the current wall-clock time and the error RMS
read from the shared state vector: baseline accumulation and completion,
best-error tracking, and the freeze decision. -/
def loopStep (p : FreezeParams) (s : LoopState) (now errRms : ℝ) :
    LoopState :=
  let s1 : LoopState :=
    if s.baselineActive then
      let baselineSum := s.baselineSum + errRms
      let baselineCount := s.baselineCount + 1
      if p.baselineDuration ≤ now - p.baselineStart then
        let measured := baselineSum / (max 1 baselineCount : ℕ)
        let baselineErr := max measured p.freezeBaselineMinErr
        { s with
          baselineSum := baselineSum
          baselineCount := baselineCount
          baselineErr := some baselineErr
          baselineActive := false
          adaptationActive := true
          bestErr := (baselineErr : EReal)
          ancEnabledAt := some now }
      else
        { s with
          baselineSum := baselineSum
          baselineCount := baselineCount }
    else
      let s2 :=
        if s.baselineErr = none ∧ p.freezeBaselineMinErr < errRms then
          { s with
            baselineErr := some errRms
            bestErr := (errRms : EReal) }
        else s
      if p.freezeBaselineMinErr < errRms ∧ (errRms : EReal) < s2.bestErr then
        { s2 with bestErr := (errRms : EReal) }
      else s2
  if p.freezeAdaptation ∧ s1.adaptationActive ∧ ¬s1.baselineActive ∧
      s1.baselineErr.isSome ∧ s1.ancEnabledAt.isSome ∧
      p.freezeMinSeconds ≤ now - s1.ancEnabledAt.getD 0 ∧
      s1.bestErr < (⊤ : EReal) then
    let improvement := (s1.baselineErr.getD 0 - s1.bestErr.toReal) /
      s1.baselineErr.getD 0
    if p.freezeRelativeDrop ≤ improvement then
      { s1 with adaptationActive := false, freezeAnnounced := true }
    else s1
  else s1

/-- Session phase of the monitoring loop: Baseline = 0, Active = 1,
Frozen = 2. -/
def phaseRank (s : LoopState) : ℕ :=
  if s.baselineActive then 0 else if s.adaptationActive then 1 else 2

/-- The monitoring loop over a whole trace of `(now, err_rms)` readings. -/
def runLoop (p : FreezeParams) : LoopState → List (ℝ × ℝ) → LoopState
  | s, [] => s
  | s, (now, e) :: rest => runLoop p (loopStep p s now e) rest

lemma loopStep_baseline_stays_false {p : FreezeParams} {s : LoopState}
    {now e : ℝ} (hb : s.baselineActive = false) :
    (loopStep p s now e).baselineActive = false := by
  simp only [loopStep]
  split_ifs <;> simp_all

lemma loopStep_frozen_absorbing {p : FreezeParams} {s : LoopState}
    {now e : ℝ} (hb : s.baselineActive = false)
    (ha : s.adaptationActive = false) :
    (loopStep p s now e).baselineActive = false ∧
      (loopStep p s now e).adaptationActive = false := by
  simp only [loopStep]
  split_ifs <;> simp_all

lemma phaseRank_le_loopStep (p : FreezeParams) (s : LoopState)
    (now e : ℝ) : phaseRank s ≤ phaseRank (loopStep p s now e) := by
  by_cases hb : s.baselineActive = true
  · simp [phaseRank, hb]
  · have hb' : s.baselineActive = false := by
      simpa using hb
    by_cases ha : s.adaptationActive = true
    · have h3 : (loopStep p s now e).baselineActive = false :=
        loopStep_baseline_stays_false hb'
      simp only [phaseRank, hb', ha, if_true, if_false, h3,
        Bool.false_eq_true]
      split_ifs <;> omega
    · have ha' : s.adaptationActive = false := by
        simpa using ha
      have h2 : (loopStep p s now e).baselineActive = false ∧
          (loopStep p s now e).adaptationActive = false :=
        loopStep_frozen_absorbing hb' ha'
      simp [phaseRank, hb', ha', h2.1, h2.2]

lemma phaseRank_le_runLoop (p : FreezeParams) :
    ∀ (inputs : List (ℝ × ℝ)) (s : LoopState),
      phaseRank s ≤ phaseRank (runLoop p s inputs) := by
  intro inputs
  induction inputs with
  | nil => intro s; exact le_refl _
  | cons x rest ih =>
      intro s
      obtain ⟨now, e⟩ := x
      exact le_trans (phaseRank_le_loopStep p s now e) (ih _)

lemma runLoop_append (p : FreezeParams) :
    ∀ (xs ys : List (ℝ × ℝ)) (s : LoopState),
      runLoop p s (xs ++ ys) = runLoop p (runLoop p s xs) ys := by
  intro xs
  induction xs with
  | nil => intro ys s; rfl
  | cons x rest ih =>
      intro ys s
      obtain ⟨now, e⟩ := x
      simp only [List.cons_append, runLoop]
      exact ih ys _

lemma runLoop_baseline_stays_false (p : FreezeParams) :
    ∀ (inputs : List (ℝ × ℝ)) (s : LoopState),
      s.baselineActive = false →
      (runLoop p s inputs).baselineActive = false := by
  intro inputs
  induction inputs with
  | nil => intro s hb; exact hb
  | cons x rest ih =>
      intro s hb
      obtain ⟨now, e⟩ := x
      exact ih _ (loopStep_baseline_stays_false hb)

lemma runLoop_frozen_absorbing (p : FreezeParams) :
    ∀ (inputs : List (ℝ × ℝ)) (s : LoopState),
      s.baselineActive = false → s.adaptationActive = false →
      (runLoop p s inputs).baselineActive = false ∧
        (runLoop p s inputs).adaptationActive = false := by
  intro inputs
  induction inputs with
  | nil => intro s hb ha; exact ⟨hb, ha⟩
  | cons x rest ih =>
      intro s hb ha
      obtain ⟨now, e⟩ := x
      have h : (loopStep p s now e).baselineActive = false ∧
          (loopStep p s now e).adaptationActive = false :=
        loopStep_frozen_absorbing hb ha
      exact ih _ h.1 h.2

/-- Claim C3.  Over every execution of the `run_auto_anc` monitoring
loop, the session phase (Baseline = 0, Active = 1, Frozen = 2) is
monotone along the trace: extending any prefix of readings never
decreases the phase, so Baseline → Active → Frozen transitions are
one-directional, a completed baseline is never re-entered, and a frozen
session (adaptation disabled with baseline over) keeps adaptation
disabled for every further reading — in particular Active → Frozen
happens at most once and is never reversed. -/
theorem baseline_freeze_phase_monotone (p : FreezeParams) (s : LoopState)
    (xs ys : List (ℝ × ℝ)) :
    (phaseRank (runLoop p s xs) ≤ phaseRank (runLoop p s (xs ++ ys))) ∧
    (s.baselineActive = false →
      (runLoop p s xs).baselineActive = false) ∧
    (s.baselineActive = false → s.adaptationActive = false →
      (runLoop p s xs).baselineActive = false ∧
        (runLoop p s xs).adaptationActive = false) := by
  refine ⟨?_, runLoop_baseline_stays_false p xs s,
    runLoop_frozen_absorbing p xs s⟩
  rw [runLoop_append]
  exact phaseRank_le_runLoop p ys (runLoop p s xs)

/-- Concrete freeze parameters (the `config.py` values) used only to
instantiate witnesses. -/
def demoFreezeParams : FreezeParams := ⟨true, 0.15, 2, 1e-6, 1, 0⟩

/-- Concrete frozen loop state used only to instantiate witnesses. -/
def demoFrozenState : LoopState :=
  ⟨false, false, 1, 1, some 1, ((4/5 : ℝ) : EReal), true, some 1⟩

/-- Witness for claim C3: a frozen session stays frozen and the phase is
monotone across a concrete two-reading trace. -/
theorem baseline_freeze_phase_monotone_witness :
    (phaseRank (runLoop demoFreezeParams demoFrozenState [(3, 1)]) ≤
      phaseRank (runLoop demoFreezeParams demoFrozenState
        ([(3, 1)] ++ [(4, 1)]))) ∧
    (runLoop demoFreezeParams demoFrozenState [(3, 1)]).baselineActive
      = false ∧
    (runLoop demoFreezeParams demoFrozenState [(3, 1)]).adaptationActive
      = false :=
  ⟨(baseline_freeze_phase_monotone demoFreezeParams demoFrozenState
      [(3, 1)] [(4, 1)]).1,
    ((baseline_freeze_phase_monotone demoFreezeParams demoFrozenState
      [(3, 1)] [(4, 1)]).2.2 rfl rfl).1,
    ((baseline_freeze_phase_monotone demoFreezeParams demoFrozenState
      [(3, 1)] [(4, 1)]).2.2 rfl rfl).2⟩

/-! ### Claims C7 and C9: secondary-path identification
(`FxLMSANC.measure_secondary_path`, lines 619-665). -/

/-- Normalisation step of `measure_secondary_path`:
`energy = float(np.sqrt(np.sum(h**2) + 1e-12)); if energy > 0: h /= energy`. -/
def normalizeSecondaryTaps (h : List ℝ) : List ℝ :=
  let energy := Real.sqrt (sumSq h + 1e-12)
  if 0 < energy then h.map fun x => x / energy else h

/-- Design matrix of `measure_secondary_path`:
`X[:, i] = excitation[i : i + n_samples - fir_length]`, i.e.
`X[row, col] = excitation[col + row]`. -/
def designMatrix (excitation : List ℝ) (row col : ℕ) : ℝ :=
  (excitation.drop col).getD row 0

/-- `FxLMSANC.measure_secondary_path`, with the hardware playback /
recording and `np.linalg.lstsq` treated as oracles.  The device guard
runs first and raises `ValueError` before any excitation is generated;
otherwise the design matrix and target vector are built, the fit runs
once (no retry), and the normalised taps are returned. -/
def measureSecondaryPath (controlDeviceIndex recordDeviceIndex : Option ℤ)
    (excitation errorRecording : List ℝ) (firLength : ℕ)
    (lstsq : (ℕ → ℕ → ℝ) → List ℝ → List ℝ) : Except String (List ℝ) :=
  if controlDeviceIndex = none ∨ recordDeviceIndex = none then
    .error "Both control and record devices must be set for measurement."
  else
    let X := designMatrix excitation
    let y := errorRecording.drop firLength
    .ok (normalizeSecondaryTaps (lstsq X y))

/-- Counterexample for claim C7 as stated.  The fitted taps `[1]` are
nonzero, yet after the normalisation of `measure_secondary_path` the
stored array has L2 norm `1 / sqrt(1 + 1e-12)`, which is strictly below
1 — the division is by the regularised energy `sqrt(sum h^2 + 1e-12)`,
so the stored energy never equals 1 exactly. -/
theorem normalizeSecondaryTaps_not_unit_energy :
    (0:ℝ) < sumSq [(1:ℝ)] ∧
    l2norm (normalizeSecondaryTaps [(1:ℝ)]) < 1 ∧
    l2norm (normalizeSecondaryTaps [(1:ℝ)]) ≠ 1 := by
  have hsum : sumSq [(1:ℝ)] = 1 := by norm_num [sumSq]
  have he : (1:ℝ) < Real.sqrt (1 + 1e-12) := by
    calc (1:ℝ) = Real.sqrt 1 := Real.sqrt_one.symm
    _ < Real.sqrt (1 + 1e-12) :=
        Real.sqrt_lt_sqrt (by norm_num) (by norm_num)
  have he0 : (0:ℝ) < Real.sqrt (1 + 1e-12) := lt_trans one_pos he
  have hnorm : normalizeSecondaryTaps [(1:ℝ)] =
      [1 / Real.sqrt (1 + 1e-12)] := by
    simp only [normalizeSecondaryTaps, hsum]
    rw [if_pos he0]
    simp
  have hl2 : l2norm [1 / Real.sqrt (1 + 1e-12)] =
      1 / Real.sqrt (1 + 1e-12) := by
    have hs : sumSq [1 / Real.sqrt (1 + 1e-12)] =
        (1 / Real.sqrt (1 + 1e-12)) * (1 / Real.sqrt (1 + 1e-12)) := by
      simp [sumSq]
    rw [l2norm, hs, Real.sqrt_mul_self (by positivity)]
  have hlt : l2norm (normalizeSecondaryTaps [(1:ℝ)]) < 1 := by
    rw [hnorm, hl2]
    exact (div_lt_one he0).mpr he
  exact ⟨by rw [hsum]; norm_num, hlt, ne_of_lt hlt⟩

/-- Claim C7 (amended).  For any nonzero least-squares solution `h`,
`measure_secondary_path` rescales it by the regularised energy
`sqrt(sum h^2 + 1e-12)`: the stored taps have L2 norm
`l2norm h / sqrt(sum h^2 + 1e-12)`, which is strictly below 1 (and
approaches 1 as the unregularised energy dominates `1e-12`) rather than
exactly 1. -/
theorem normalizeSecondaryTaps_norm (h : List ℝ) (hpos : 0 < sumSq h) :
    l2norm (normalizeSecondaryTaps h) =
      l2norm h / Real.sqrt (sumSq h + 1e-12) ∧
    l2norm (normalizeSecondaryTaps h) < 1 := by
  have hpos2 : (0:ℝ) < sumSq h + 1e-12 := by positivity
  have he0 : (0:ℝ) < Real.sqrt (sumSq h + 1e-12) := Real.sqrt_pos.mpr hpos2
  have hfun : (fun x => x / Real.sqrt (sumSq h + 1e-12)) =
      fun x => x * (1 / Real.sqrt (sumSq h + 1e-12)) := by
    funext x
    ring
  have hmap : normalizeSecondaryTaps h =
      h.map fun x => x * (1 / Real.sqrt (sumSq h + 1e-12)) := by
    simp only [normalizeSecondaryTaps]
    rw [if_pos he0, hfun]
  have hnorm : l2norm (normalizeSecondaryTaps h) =
      l2norm h / Real.sqrt (sumSq h + 1e-12) := by
    rw [hmap, l2norm_map_mul h _ (by positivity)]
    ring
  refine ⟨hnorm, ?_⟩
  rw [hnorm]
  rw [div_lt_one he0, l2norm]
  exact Real.sqrt_lt_sqrt (sumSq_nonneg h) (by linarith)

/-- Witness for claim C7 at the concrete fit `h = [1]`. -/
theorem normalizeSecondaryTaps_norm_witness :
    (0:ℝ) < sumSq [(1:ℝ)] ∧
    (l2norm (normalizeSecondaryTaps [(1:ℝ)]) =
      l2norm [(1:ℝ)] / Real.sqrt (sumSq [(1:ℝ)] + 1e-12) ∧
    l2norm (normalizeSecondaryTaps [(1:ℝ)]) < 1) :=
  ⟨by norm_num [sumSq],
    normalizeSecondaryTaps_norm [(1:ℝ)] (by norm_num [sumSq])⟩

/-- Counterexample for claim C9 as stated.  With the control device
unconfigured but the record device configured — so NOT both `None` —
`measure_secondary_path` still raises the configuration error, refuting
"raises exactly when both are unconfigured". -/
theorem measureSecondaryPath_single_none_raises :
    (¬((none : Option ℤ) = none ∧ (some (5:ℤ)) = none)) ∧
    measureSecondaryPath none (some (5:ℤ)) [] [] 0 (fun _ y => y) =
      .error "Both control and record devices must be set for measurement." := by
  constructor
  · simp
  · rfl

/-- Claim C9 (amended).  `measure_secondary_path` raises the
configuration error exactly when the control device index OR the record
device index is unconfigured (`None`) — the guard is the first statement
of the function, before any excitation is generated — and when both
devices are configured it proceeds directly to the single least-squares
fit of the recorded response, without retrying. -/
theorem measureSecondaryPath_error_iff
    (c r : Option ℤ) (excitation errorRecording : List ℝ) (firLength : ℕ)
    (lstsq : (ℕ → ℕ → ℝ) → List ℝ → List ℝ) :
    ((∃ msg, measureSecondaryPath c r excitation errorRecording firLength
        lstsq = .error msg) ↔ (c = none ∨ r = none)) ∧
    (∀ ci ri, c = some ci → r = some ri →
      measureSecondaryPath c r excitation errorRecording firLength lstsq =
        .ok (normalizeSecondaryTaps (lstsq (designMatrix excitation)
          (errorRecording.drop firLength)))) := by
  constructor
  · constructor
    · intro ⟨msg, hmsg⟩
      by_contra hcon
      push_neg at hcon
      rw [measureSecondaryPath, if_neg (by simp [hcon.1, hcon.2])] at hmsg
      exact Except.noConfusion hmsg
    · intro hor
      exact ⟨_, by rw [measureSecondaryPath, if_pos hor]⟩
  · intro ci ri hc hr
    rw [measureSecondaryPath, if_neg (by simp [hc, hr])]

/-- Witness for claim C9 (amended) with both devices configured. -/
theorem measureSecondaryPath_error_iff_witness :
    ((∃ msg, measureSecondaryPath (some (3:ℤ)) (some (5:ℤ)) [] [] 0
        (fun _ y => y) = .error msg) ↔
      ((some (3:ℤ)) = none ∨ (some (5:ℤ)) = none)) ∧
    measureSecondaryPath (some (3:ℤ)) (some (5:ℤ)) [] [] 0 (fun _ y => y) =
      .ok (normalizeSecondaryTaps ((fun _ y => y) (designMatrix [])
        (([] : List ℝ).drop 0))) :=
  ⟨(measureSecondaryPath_error_iff (some 3) (some 5) [] [] 0
      (fun _ y => y)).1,
    (measureSecondaryPath_error_iff (some 3) (some 5) [] [] 0
      (fun _ y => y)).2 3 5 rfl rfl⟩

/-! ### Claim C8: channel validation before stream creation
(`io_utils.ensure_available_channels`, `io_utils.resolve_device_index`,
and the startup of `run_auto_anc`, lines 181-257). -/

/-- Direction of an audio device port. -/
inductive Direction where
  | input
  | output
  deriving DecidableEq

/-- Result of `sd.query_devices(index)`: the fields the validation
reads. -/
structure DeviceInfo where
  name : String
  maxInputChannels : ℤ
  maxOutputChannels : ℤ

/-- Errors raised during `run_auto_anc` startup validation, carrying the
data interpolated into the corresponding `ValueError` message (device
label, reported device name, actual capacity, required channels and the
channel detail string). -/
inductive StartupError where
  | negativeChannel (name : String) (value : ℤ)
  | noDefaultDevice (direction : Direction)
  | needsOneChannel (label : String) (direction : Direction)
  | channelCapacity (label deviceName : String) (available : ℤ)
      (direction : Direction) (required : ℤ) (detail : Option String)

/-- `_require_non_negative` of `zero_cross_anc_cli.py`. -/
def requireNonNegative (value : ℤ) (name : String) :
    Except StartupError Unit :=
  if value < 0 then .error (.negativeChannel name value) else .ok ()

/-- `io_utils.resolve_device_index`: an explicit index is returned as is,
otherwise the sounddevice default pair is consulted (`none` for the pair
models a missing or malformed `sd.default.device`). -/
def resolveDeviceIndex (deviceIndex : Option ℤ)
    (defaults : Option (Option ℤ × Option ℤ)) (direction : Direction) :
    Except StartupError ℤ :=
  match deviceIndex with
  | some idx => .ok idx
  | none =>
      match defaults with
      | none => .error (.noDefaultDevice direction)
      | some (inIdx, outIdx) =>
          match (if direction = Direction.input then inIdx else outIdx) with
          | none => .error (.noDefaultDevice direction)
          | some i =>
              if i < 0 then .error (.noDefaultDevice direction) else .ok i

/-- `io_utils.ensure_available_channels`: rejects a non-positive
requirement, resolves the device, queries its capacity in the requested
direction, and raises a capacity error naming the device and its actual
capacity when `available < required`. -/
def ensureAvailableChannels (queryDevices : ℤ → DeviceInfo)
    (defaults : Option (Option ℤ × Option ℤ)) (deviceIndex : Option ℤ)
    (direction : Direction) (requiredChannels : ℤ) (label : String)
    (detail : Option String) : Except StartupError Unit :=
  if requiredChannels ≤ 0 then .error (.needsOneChannel label direction)
  else
    match resolveDeviceIndex deviceIndex defaults direction with
    | .error e => .error e
    | .ok resolvedIndex =>
        let info := queryDevices resolvedIndex
        let available := if direction = Direction.input then
            info.maxInputChannels else info.maxOutputChannels
        if available < requiredChannels then
          .error (.channelCapacity label info.name available direction
            requiredChannels detail)
        else .ok ()

/-- Stream parameters handed to `sd.Stream(...)` by `run_auto_anc`; a
value of this type exists only after both validations pass. -/
structure StreamConfig where
  inputChannels : ℤ
  outputChannels : ℤ
  recordDevice : Option ℤ
  controlDevice : Option ℤ

/-- Startup path of `run_auto_anc` up to stream creation: the
non-negative channel checks, `input_channels = max(err, ref) + 1`,
`output_channels = max(1, ctrl + 1)`, validation of the record and
control devices, and only then the `sd.Stream` construction. -/
def runAutoAncStartup (queryDevices : ℤ → DeviceInfo)
    (defaults : Option (Option ℤ × Option ℤ))
    (errorInputChannel referenceInputChannel controlOutputChannel : ℤ)
    (recordDevice controlDevice : Option ℤ) :
    Except StartupError StreamConfig := do
  _ ← requireNonNegative errorInputChannel "ERROR_INPUT_CHANNEL"
  _ ← requireNonNegative referenceInputChannel "REFERENCE_INPUT_CHANNEL"
  _ ← requireNonNegative controlOutputChannel "CONTROL_OUTPUT_CHANNEL"
  let inputChannels := max errorInputChannel referenceInputChannel + 1
  let outputChannels := max 1 (controlOutputChannel + 1)
  _ ← ensureAvailableChannels queryDevices defaults recordDevice
    Direction.input inputChannels "Record device"
    (some ("error=" ++ toString errorInputChannel ++ ", reference=" ++
      toString referenceInputChannel))
  _ ← ensureAvailableChannels queryDevices defaults controlDevice
    Direction.output outputChannels "Control device"
    (some ("control output index=" ++ toString controlOutputChannel))
  pure ⟨inputChannels, outputChannels, recordDevice, controlDevice⟩

/-- Claim C8.  For configured devices and non-negative channel indices:
whenever a device reports a capacity no greater than some configured
channel index (capacity < index + 1) the startup of the zero-crossing
runner fails with a validation error before any stream value is
produced, the capacity error names the queried device and its actual
capacity, and when every channel index is strictly below its device's
capacity the validation raises nothing and the stream configuration is
created. -/
theorem channel_validation_before_stream (queryDevices : ℤ → DeviceInfo)
    (defaults : Option (Option ℤ × Option ℤ)) (errCh refCh ctrlCh rd cd : ℤ)
    (h0 : 0 ≤ errCh) (h1 : 0 ≤ refCh) (h2 : 0 ≤ ctrlCh) :
    ((queryDevices rd).maxInputChannels < max errCh refCh + 1 →
      ∃ d, runAutoAncStartup queryDevices defaults errCh refCh ctrlCh
          (some rd) (some cd) =
        .error (.channelCapacity "Record device" (queryDevices rd).name
          (queryDevices rd).maxInputChannels Direction.input
          (max errCh refCh + 1) d)) ∧
    (max errCh refCh + 1 ≤ (queryDevices rd).maxInputChannels →
      (queryDevices cd).maxOutputChannels < max 1 (ctrlCh + 1) →
      ∃ d, runAutoAncStartup queryDevices defaults errCh refCh ctrlCh
          (some rd) (some cd) =
        .error (.channelCapacity "Control device" (queryDevices cd).name
          (queryDevices cd).maxOutputChannels Direction.output
          (max 1 (ctrlCh + 1)) d)) ∧
    (((queryDevices rd).maxInputChannels < errCh + 1 ∨
      (queryDevices rd).maxInputChannels < refCh + 1 ∨
      (queryDevices cd).maxOutputChannels < ctrlCh + 1) →
      ∃ e, runAutoAncStartup queryDevices defaults errCh refCh ctrlCh
          (some rd) (some cd) = .error e) ∧
    (errCh < (queryDevices rd).maxInputChannels →
      refCh < (queryDevices rd).maxInputChannels →
      ctrlCh < (queryDevices cd).maxOutputChannels →
      runAutoAncStartup queryDevices defaults errCh refCh ctrlCh
          (some rd) (some cd) =
        .ok ⟨max errCh refCh + 1, max 1 (ctrlCh + 1), some rd, some cd⟩) := by
  have hn0 : ¬(errCh < 0) := by omega
  have hn1 : ¬(refCh < 0) := by omega
  have hn2 : ¬(ctrlCh < 0) := by omega
  have hpos : ¬(max errCh refCh + 1 ≤ 0) := by omega
  have hpos2 : ¬(max 1 (ctrlCh + 1) ≤ 0) := by omega
  have hrecCase : (queryDevices rd).maxInputChannels < max errCh refCh + 1 →
      ∃ d, runAutoAncStartup queryDevices defaults errCh refCh ctrlCh
          (some rd) (some cd) =
        .error (.channelCapacity "Record device" (queryDevices rd).name
          (queryDevices rd).maxInputChannels Direction.input
          (max errCh refCh + 1) d) := by
    intro hrec
    refine ⟨some ("error=" ++ toString errCh ++ ", reference=" ++
      toString refCh), ?_⟩
    simp [runAutoAncStartup, requireNonNegative, ensureAvailableChannels,
      resolveDeviceIndex, hn0, hn1, hn2, hpos, hrec, Bind.bind, Except.bind]
  have hctrlCase : max errCh refCh + 1 ≤ (queryDevices rd).maxInputChannels →
      (queryDevices cd).maxOutputChannels < max 1 (ctrlCh + 1) →
      ∃ d, runAutoAncStartup queryDevices defaults errCh refCh ctrlCh
          (some rd) (some cd) =
        .error (.channelCapacity "Control device" (queryDevices cd).name
          (queryDevices cd).maxOutputChannels Direction.output
          (max 1 (ctrlCh + 1)) d) := by
    intro hrecOk hctrl
    refine ⟨some ("control output index=" ++ toString ctrlCh), ?_⟩
    have hok1 : ¬((queryDevices rd).maxInputChannels <
        max errCh refCh + 1) := by omega
    simp [runAutoAncStartup, requireNonNegative, ensureAvailableChannels,
      resolveDeviceIndex, hn0, hn1, hn2, hpos, hpos2, hok1, hctrl,
      Bind.bind, Except.bind]
  refine ⟨hrecCase, hctrlCase, ?_, ?_⟩
  · intro hbad
    by_cases hrec : (queryDevices rd).maxInputChannels < max errCh refCh + 1
    · obtain ⟨d, hd⟩ := hrecCase hrec
      exact ⟨_, hd⟩
    · have hctrl : (queryDevices cd).maxOutputChannels < max 1 (ctrlCh + 1) := by
        omega
      obtain ⟨d, hd⟩ := hctrlCase (by omega) hctrl
      exact ⟨_, hd⟩
  · intro ha hb hc
    have hok1 : ¬((queryDevices rd).maxInputChannels <
        max errCh refCh + 1) := by omega
    have hok2 : ¬((queryDevices cd).maxOutputChannels <
        max 1 (ctrlCh + 1)) := by omega
    simp [runAutoAncStartup, requireNonNegative, ensureAvailableChannels,
      resolveDeviceIndex, hn0, hn1, hn2, hpos, hpos2, hok1, hok2,
      Bind.bind, Except.bind, Pure.pure, Except.pure]

/-- Witness for claim C8: channels 0/1/0 against 2-in/2-out devices, as
in the shipped configuration; validation passes and the stream
configuration is produced. -/
theorem channel_validation_before_stream_witness :
    ((0:ℤ) ≤ 0) ∧ ((0:ℤ) ≤ 1) ∧ ((0:ℤ) ≤ 0) ∧
    ((0:ℤ) < ((fun _ => ⟨"USB Audio", 2, 2⟩ : ℤ → DeviceInfo) 9
      ).maxInputChannels) ∧
    ((1:ℤ) < ((fun _ => ⟨"USB Audio", 2, 2⟩ : ℤ → DeviceInfo) 9
      ).maxInputChannels) ∧
    ((0:ℤ) < ((fun _ => ⟨"USB Audio", 2, 2⟩ : ℤ → DeviceInfo) 9
      ).maxOutputChannels) ∧
    runAutoAncStartup (fun _ => ⟨"USB Audio", 2, 2⟩) none 0 1 0
        (some 9) (some 9) =
      .ok ⟨max 0 1 + 1, max 1 (0 + 1), some 9, some 9⟩ :=
  ⟨by norm_num, by norm_num, by norm_num, by norm_num, by norm_num,
    by norm_num,
    (channel_validation_before_stream (fun _ => ⟨"USB Audio", 2, 2⟩) none
      0 1 0 9 9 (by norm_num) (by norm_num) (by norm_num)).2.2.2
      (by norm_num) (by norm_num) (by norm_num)⟩
